import Mathlib

/-!
# Ethereum transaction dispatch and signature-field packing

A shallow embedding of `chain/types/ethtypes/eth_transaction_utils.go`:
the dispatcher `ToSignedMessage`, which looks at the first byte of a raw
transaction and hands it to one of two decoders, and `packSigFields`, which
formats the three signature integers.

The functions that the file calls but does not define (`parseLegacyTx`,
`parseEip1559Tx`, the two `ToSignedMessage` methods of the decoded
transactions, `formatBigInt`) are arguments of the embedding.  They run in an
arbitrary monad `m`, so that a statement `f x = pure r` that holds in every
monad says that `f` returns `r` without running any of them.
-/

namespace ethtypes

/-! ## Go values -/

/-- Go's `error` values as this file builds them: a message.  The absent
error `nil` is `none : Option error`. -/
structure error where
  msg : String
deriving DecidableEq, Repr

/-- The call `fmt.Errorf(format)` with a constant format string and no
arguments: the error whose message is that string. -/
def fmt.Errorf (format : String) : error := ⟨format⟩

/-- Modelled from the spec: the constant `Eip1559TxType` is declared outside
the file; the spec gives "the EIP-1559 type constant (0x02)". -/
def Eip1559TxType : UInt8 := 0x02

/-! ## The dispatcher -/

section Dispatcher

variable {m : Type → Type} [Monad m] {SignedMessage LegacyTx Eip1559Tx : Type}

/-- The function `ToSignedMessage(data []byte) (*types.SignedMessage, error)`.
A result is the pair Go returns: the message pointer (`none` for `nil`) and
the error (`none` for `nil`).

* `parseLegacyTx`, `parseEip1559Tx`: the two decoders, each returning a
  decoded transaction and an error;
* `legacyToSignedMessage`, `eip1559ToSignedMessage`: the method
  `tx.ToSignedMessage()` of the transaction each decoder returns. -/
def ToSignedMessage
    (parseLegacyTx : List UInt8 → m (LegacyTx × Option error))
    (legacyToSignedMessage : LegacyTx → m (Option SignedMessage × Option error))
    (parseEip1559Tx : List UInt8 → m (Eip1559Tx × Option error))
    (eip1559ToSignedMessage : Eip1559Tx → m (Option SignedMessage × Option error))
    (data : List UInt8) : m (Option SignedMessage × Option error) :=
  if h : data.length = 0 then
    pure (none, some (fmt.Errorf "empty data"))
  else
    have h0 : 0 < data.length := Nat.pos_of_ne_zero h
    if data[0] > 0x7f then do
      -- legacy transaction
      let (tx, err) ← parseLegacyTx data
      if err ≠ none then
        pure (none, err)
      else
        legacyToSignedMessage tx
    else if data[0] = 1 then
      -- EIP-2930
      pure (none, some (fmt.Errorf "EIP-2930 transaction is not supported"))
    else if data[0] = Eip1559TxType then do
      -- EIP-1559
      let (tx, err) ← parseEip1559Tx data
      if err ≠ none then
        pure (none, err)
      else
        eip1559ToSignedMessage tx
    else
      pure (none, some (fmt.Errorf "unsupported transaction type"))

/-- The delegation to a decoder as the spec words it: run the decoder on the
input; when it fails, return its error and no message; when it succeeds,
return what the decoded transaction's own `ToSignedMessage` returns. -/
def delegate {Tx : Type} (decoder : List UInt8 → m (Tx × Option error))
    (toSignedMessage : Tx → m (Option SignedMessage × Option error))
    (data : List UInt8) : m (Option SignedMessage × Option error) :=
  decoder data >>= fun decoded =>
    match decoded.2 with
    | some e => pure (none, some e)
    | none => toSignedMessage decoded.1

end Dispatcher

/-- The first byte `b` of an unrecognised transaction, as the claims describe
it: zero, or from 0x03 to 0x7f. -/
def unrecognised (b : UInt8) : Prop := b = 0x00 ∨ (0x03 ≤ b ∧ b ≤ 0x7f)

instance (b : UInt8) : Decidable (unrecognised b) := by
  unfold unrecognised; infer_instance

/-- A decoder for concrete evaluations: it accepts every input. -/
def acceptingDecoder : List UInt8 → Id (Unit × Option error) :=
  fun _ => ((), none)

/-- A decoder for concrete evaluations: it rejects every input with the
error "rlp: expected list". -/
def rejectingDecoder : List UInt8 → Id (Unit × Option error) :=
  fun _ => ((), some (fmt.Errorf "rlp: expected list"))

/-- A message assembly for concrete evaluations: it returns the one message
of type `Unit` and no error. -/
def unitAssembly : Unit → Id (Option Unit × Option error) :=
  fun _ => (some (), none)

/-- A decoder for concrete evaluations in the monad `Option`, where `none`
is a computation that aborts: it returns, rejecting its input with the error
"rlp: expected list". -/
def rejectingDecoderOpt : List UInt8 → Option (Unit × Option error) :=
  fun _ => some ((), some (fmt.Errorf "rlp: expected list"))

/-- A message assembly for concrete evaluations in the monad `Option`: it
aborts whenever it is run. -/
def abortingAssembly : Unit → Option (Option Unit × Option error) :=
  fun _ => none

/-- A formatting function for concrete evaluations: it returns the integer
itself and never fails. -/
def identityFormat : Nat → Id (Nat × Option error) :=
  fun x => (x, none)

/-! ## Packing the signature fields -/

section Pack

variable {m : Type → Type} [Monad m] {BigInt Formatted : Type}

/-- The function `packSigFields(v, r, s big.Int) ([]interface{}, error)`.
`formatBigInt` is the formatting function it calls; a result is the pair Go
returns: the slice (`none` for `nil`) and the error (`none` for `nil`). -/
def packSigFields (formatBigInt : BigInt → m (Formatted × Option error))
    (v r s : BigInt) : m (Option (List Formatted) × Option error) := do
  let (vFormatted, err) ← formatBigInt v
  if err ≠ none then
    pure (none, err)
  else
    let (rFormatted, err) ← formatBigInt r
    if err ≠ none then
      pure (none, err)
    else
      let (sFormatted, err) ← formatBigInt s
      if err ≠ none then
        pure (none, err)
      else
        pure (some [vFormatted, rFormatted, sFormatted], none)

end Pack

/-- Base-256 digits of `n`, most significant first, with no digit at all for
zero; `fuel` bounds the number of digits produced. -/
def bigEndianAux : Nat → Nat → List UInt8
  | 0, _ => []
  | fuel + 1, n =>
    if n = 0 then [] else bigEndianAux fuel (n / 256) ++ [UInt8.ofNat (n % 256)]

/-- Base-256 digits of `n`, most significant first, with no leading zero
(and so no digit for zero). -/
def bigEndian (n : Nat) : List UInt8 := bigEndianAux n n

/-- The number a byte sequence stands for, read most significant byte
first. -/
def fromBigEndian (bs : List UInt8) : Nat :=
  bs.foldl (fun acc b => acc * 256 + b.toNat) 0

/-- Modelled from the spec: the error kind `IntegerOverflow` of the spec's
error taxonomy; the files at hand build no such error, so its message is
the kind's name. -/
def IntegerOverflow : error := fmt.Errorf "IntegerOverflow"

/-- Modelled from the spec: the maximum width of a signature field, "32
bytes". -/
def maxFieldWidth : Nat := 32

/-- Modelled from the spec: `formatBigInt` is called by `packSigFields` but
defined outside the files at hand.  Following the spec's field
canonicalization, over the non-negative integers it is stated for: the
minimal-length big-endian bytes, a single zero byte for zero, and the
`IntegerOverflow` failure (with no bytes) when that representation is wider
than 32 bytes. -/
def formatBigInt (val : Nat) : Id (List UInt8 × Option error) :=
  let minimal : List UInt8 := if val = 0 then [0] else bigEndian val
  if minimal.length > maxFieldWidth then
    ([], some IntegerOverflow)
  else
    (minimal, none)

/-- The spec's words for a canonical field: `bs` is a big-endian
representation of `x`, it is not the empty sequence, zero is the single zero
byte, a non-zero integer has no leading zero byte, and no non-empty
representation of `x` is shorter. -/
def IsCanonical (x : Nat) (bs : List UInt8) : Prop :=
  fromBigEndian bs = x ∧ bs ≠ [] ∧ (x = 0 → bs = [0]) ∧
    (x ≠ 0 → bs.head? ≠ some 0) ∧
    ∀ other : List UInt8, other ≠ [] → fromBigEndian other = x → bs.length ≤ other.length

/-! ## The five cases of the dispatch -/

/-- The five cases of an input, as the claims name them. -/
inductive TxKind where
  | empty
  | legacy
  | eip2930
  | eip1559
  | unknown
deriving DecidableEq, Repr

/-- The condition that puts an input in a case, as the claims word it: no
byte at all; a first byte above 0x7f; a first byte 1; a first byte 0x02; any
other first byte. -/
def TxKind.holds : TxKind → List UInt8 → Bool
  | .empty, data => data.isEmpty
  | .legacy, data =>
    match data.head? with
    | some b => decide (b > 0x7f)
    | none => false
  | .eip2930, data =>
    match data.head? with
    | some b => decide (b = 1)
    | none => false
  | .eip1559, data =>
    match data.head? with
    | some b => decide (b = 0x02)
    | none => false
  | .unknown, data =>
    match data.head? with
    | some b => decide (¬ b > 0x7f ∧ b ≠ 1 ∧ b ≠ 0x02)
    | none => false

section Cases

variable {m : Type → Type} [Monad m] {SignedMessage LegacyTx Eip1559Tx : Type}

/-- What the dispatch does in each case, as the spec lists it: the three
rejections, and the delegation to one of the two decoders. -/
def TxKind.outcome
    (parseLegacyTx : List UInt8 → m (LegacyTx × Option error))
    (legacyToSignedMessage : LegacyTx → m (Option SignedMessage × Option error))
    (parseEip1559Tx : List UInt8 → m (Eip1559Tx × Option error))
    (eip1559ToSignedMessage : Eip1559Tx → m (Option SignedMessage × Option error)) :
    TxKind → List UInt8 → m (Option SignedMessage × Option error)
  | .empty, _ => pure (none, some (fmt.Errorf "empty data"))
  | .legacy, data => delegate parseLegacyTx legacyToSignedMessage data
  | .eip2930, _ => pure (none, some (fmt.Errorf "EIP-2930 transaction is not supported"))
  | .eip1559, data => delegate parseEip1559Tx eip1559ToSignedMessage data
  | .unknown, _ => pure (none, some (fmt.Errorf "unsupported transaction type"))

/-- A dispatch that tests the cases in the given order and does what the
first case that holds asks for; `none` when no case of the list holds. -/
def dispatchInOrder
    (parseLegacyTx : List UInt8 → m (LegacyTx × Option error))
    (legacyToSignedMessage : LegacyTx → m (Option SignedMessage × Option error))
    (parseEip1559Tx : List UInt8 → m (Eip1559Tx × Option error))
    (eip1559ToSignedMessage : Eip1559Tx → m (Option SignedMessage × Option error)) :
    List TxKind → List UInt8 → Option (m (Option SignedMessage × Option error))
  | [], _ => none
  | k :: ks, data =>
    if k.holds data then
      some (k.outcome parseLegacyTx legacyToSignedMessage parseEip1559Tx
        eip1559ToSignedMessage data)
    else
      dispatchInOrder parseLegacyTx legacyToSignedMessage parseEip1559Tx
        eip1559ToSignedMessage ks data

end Cases

/-! ## Callees that record their calls -/

/-- The two decoders, as entries of a call log. -/
inductive Decoder where
  | parseLegacyTx
  | parseEip1559Tx
deriving DecidableEq, Repr

/-- The function `f` as a callee that records each of its calls: it appends
an entry for its argument to the call log it carries as state, then returns
what `f` returns. -/
def recorded {κ α β : Type} (entry : α → κ) (f : α → β) : α → StateM (List κ) β :=
  fun a => do
    modify (fun log => log ++ [entry a])
    pure (f a)

/-- The function `f` as a callee without any effect, in the monad `m`. -/
def effectFree {m : Type → Type} [Monad m] {α β : Type} (f : α → β) : α → m β :=
  fun a => pure (f a)

/-- A formatting function for concrete evaluations: it returns the integer
itself below 256 and fails with the error "too wide" from 256 on. -/
def narrowFormat : Nat → Nat × Option error :=
  fun x => if x < 256 then (x, none) else (0, some (fmt.Errorf "too wide"))

/-- Go's index expression `data[i]`: the byte at index `i`, or `none` for the
run-time panic "index out of range". -/
def indexByte (data : List UInt8) (i : Nat) : Option UInt8 :=
  data.get? i

section Indexed

variable {SignedMessage LegacyTx Eip1559Tx : Type}

/-- The function `ToSignedMessage` of the source once more, with every
index expression `data[0]` evaluated as Go evaluates it, by `indexByte`, each
of the three reads on its own: the result is `none` when a read panics, and
`some` of the pair the function returns otherwise.  The callees are functions
of their argument. -/
def ToSignedMessageIndexed
    (parseLegacyTx : List UInt8 → LegacyTx × Option error)
    (legacyToSignedMessage : LegacyTx → Option SignedMessage × Option error)
    (parseEip1559Tx : List UInt8 → Eip1559Tx × Option error)
    (eip1559ToSignedMessage : Eip1559Tx → Option SignedMessage × Option error)
    (data : List UInt8) : Option (Option SignedMessage × Option error) :=
  if data.length = 0 then
    some (none, some (fmt.Errorf "empty data"))
  else do
    let first ← indexByte data 0
    if first > 0x7f then
      -- legacy transaction
      let (tx, err) := parseLegacyTx data
      if err ≠ none then
        pure (none, err)
      else
        pure (legacyToSignedMessage tx)
    else
      let first ← indexByte data 0
      if first = 1 then
        -- EIP-2930
        pure (none, some (fmt.Errorf "EIP-2930 transaction is not supported"))
      else
        let first ← indexByte data 0
        if first = Eip1559TxType then
          -- EIP-1559
          let (tx, err) := parseEip1559Tx data
          if err ≠ none then
            pure (none, err)
          else
            pure (eip1559ToSignedMessage tx)
        else
          pure (none, some (fmt.Errorf "unsupported transaction type"))

end Indexed

/-! ## Theorems about the dispatcher -/

section DispatcherTheorems

variable {m : Type → Type} [Monad m] {SignedMessage LegacyTx Eip1559Tx : Type}
variable (parseLegacyTx : List UInt8 → m (LegacyTx × Option error))
variable (legacyToSignedMessage : LegacyTx → m (Option SignedMessage × Option error))
variable (parseEip1559Tx : List UInt8 → m (Eip1559Tx × Option error))
variable (eip1559ToSignedMessage : Eip1559Tx → m (Option SignedMessage × Option error))

theorem unrecognised_iff (b : UInt8) :
    unrecognised b ↔ ¬ b > 0x7f ∧ b ≠ 1 ∧ b ≠ Eip1559TxType := by
  rcases b with ⟨n⟩
  revert n
  unfold unrecognised
  decide

/-- The tests the dispatcher makes on a non-empty input, in the order of the
source, with each decoder branch written as a delegation. -/
theorem ToSignedMessage_cons (b : UInt8) (rest : List UInt8) :
    ToSignedMessage parseLegacyTx legacyToSignedMessage parseEip1559Tx
        eip1559ToSignedMessage (b :: rest)
      = if b > 0x7f then
          delegate parseLegacyTx legacyToSignedMessage (b :: rest)
        else if b = 1 then
          pure (none, some (fmt.Errorf "EIP-2930 transaction is not supported"))
        else if b = Eip1559TxType then
          delegate parseEip1559Tx eip1559ToSignedMessage (b :: rest)
        else
          pure (none, some (fmt.Errorf "unsupported transaction type")) := by
  have hbranch : ∀ {Tx : Type} (decoder : List UInt8 → m (Tx × Option error))
      (toMsg : Tx → m (Option SignedMessage × Option error)),
      (do
        let (tx, err) ← decoder (b :: rest)
        if err ≠ none then pure (none, err) else toMsg tx)
        = delegate decoder toMsg (b :: rest) := by
    intro Tx decoder toMsg
    unfold delegate
    congr 1
    funext decoded
    rcases decoded with ⟨tx, err⟩
    cases err <;> simp
  simp only [ToSignedMessage, List.length_cons, Nat.add_one_ne_zero, dite_false,
    List.getElem_cons_zero, hbranch]

theorem ToSignedMessage_nil :
    ToSignedMessage parseLegacyTx legacyToSignedMessage parseEip1559Tx
        eip1559ToSignedMessage []
      = pure (none, some (fmt.Errorf "empty data")) := by
  simp [ToSignedMessage]

/-- C1: every input whose first byte is 1 is rejected with the EIP-2930
error and no message, whatever the remaining bytes.  The equation holds in
every monad and for every pair of decoders, so neither decoder is run. -/
theorem ToSignedMessage_eip2930_rejected (rest : List UInt8) :
    ToSignedMessage parseLegacyTx legacyToSignedMessage parseEip1559Tx
        eip1559ToSignedMessage (1 :: rest)
      = pure (none, some (fmt.Errorf "EIP-2930 transaction is not supported")) := by
  simp [ToSignedMessage]

/-- C2: the empty byte sequence is rejected with the "empty data" error and
no message. -/
theorem ToSignedMessage_empty_rejected :
    ToSignedMessage parseLegacyTx legacyToSignedMessage parseEip1559Tx
        eip1559ToSignedMessage []
      = pure (none, some (fmt.Errorf "empty data")) := by
  simp [ToSignedMessage]

/-- C3, as stated, fails: the inputs `[0x05]` and `[0x06]` are rejected with
one and the same error, whose message is the constant text "unsupported
transaction type", so no reading of the error gives back the observed
byte. -/
theorem ToSignedMessage_error_omits_byte :
    ToSignedMessage rejectingDecoder unitAssembly rejectingDecoder unitAssembly [0x05]
        = pure (none, some (fmt.Errorf "unsupported transaction type")) ∧
    ToSignedMessage rejectingDecoder unitAssembly rejectingDecoder unitAssembly [0x06]
        = pure (none, some (fmt.Errorf "unsupported transaction type")) ∧
    ¬ ∃ observed : error → UInt8, ∀ b : UInt8, b = 0x05 ∨ b = 0x06 →
        ∃ e, ToSignedMessage rejectingDecoder unitAssembly rejectingDecoder unitAssembly [b]
            = pure (none, some e) ∧ observed e = b := by
  have h5 : ToSignedMessage rejectingDecoder unitAssembly rejectingDecoder unitAssembly [0x05]
      = pure (none, some (fmt.Errorf "unsupported transaction type")) := by
    rw [ToSignedMessage_cons]; rfl
  have h6 : ToSignedMessage rejectingDecoder unitAssembly rejectingDecoder unitAssembly [0x06]
      = pure (none, some (fmt.Errorf "unsupported transaction type")) := by
    rw [ToSignedMessage_cons]; rfl
  refine ⟨h5, h6, ?_⟩
  rintro ⟨observed, hobs⟩
  obtain ⟨e5, he5, ho5⟩ := hobs 0x05 (Or.inl rfl)
  obtain ⟨e6, he6, ho6⟩ := hobs 0x06 (Or.inr rfl)
  rw [h5] at he5
  rw [h6] at he6
  have e5eq : e5 = fmt.Errorf "unsupported transaction type" := by
    have := congrArg Prod.snd he5
    simpa [pure] using this.symm
  have e6eq : e6 = fmt.Errorf "unsupported transaction type" := by
    have := congrArg Prod.snd he6
    simpa [pure] using this.symm
  rw [e5eq] at ho5
  rw [e6eq, ho5] at ho6
  exact absurd ho6 (by decide)

/-- C3, amended: every input whose first byte is zero or lies between 0x03
and 0x7f is rejected, with no message, by the error "unsupported transaction
type"; the error is the same for every such byte. -/
theorem ToSignedMessage_unrecognised_rejected (b : UInt8) (rest : List UInt8)
    (h : unrecognised b) :
    ToSignedMessage parseLegacyTx legacyToSignedMessage parseEip1559Tx
        eip1559ToSignedMessage (b :: rest)
      = pure (none, some (fmt.Errorf "unsupported transaction type")) := by
  obtain ⟨h1, h2, h3⟩ := (unrecognised_iff b).1 h
  simp [ToSignedMessage_cons, h1, h2, h3]

theorem ToSignedMessage_unrecognised_rejected_witness :
    unrecognised 0x05 ∧
    ToSignedMessage rejectingDecoder unitAssembly rejectingDecoder unitAssembly [0x05, 0xc0]
      = pure (none, some (fmt.Errorf "unsupported transaction type")) :=
  ⟨by decide, ToSignedMessage_unrecognised_rejected _ _ _ _ 0x05 [0xc0] (by decide)⟩

/-- C4: every input whose first byte is greater than 0x7f is treated as
legacy: the result is that of running `parseLegacyTx` on the whole input
and, when it succeeds, the decoded transaction's `ToSignedMessage`. -/
theorem ToSignedMessage_legacy (b : UInt8) (rest : List UInt8) (h : b > 0x7f) :
    ToSignedMessage parseLegacyTx legacyToSignedMessage parseEip1559Tx
        eip1559ToSignedMessage (b :: rest)
      = delegate parseLegacyTx legacyToSignedMessage (b :: rest) := by
  simp [ToSignedMessage_cons, h]

theorem ToSignedMessage_legacy_witness :
    ((0x80 : UInt8) > 0x7f ∧
      ToSignedMessage acceptingDecoder unitAssembly rejectingDecoder unitAssembly [0x80]
        = delegate acceptingDecoder unitAssembly [0x80]) ∧
    ((0xbf : UInt8) > 0x7f ∧
      ToSignedMessage acceptingDecoder unitAssembly rejectingDecoder unitAssembly [0xbf, 0x01]
        = delegate acceptingDecoder unitAssembly [0xbf, 0x01]) :=
  ⟨⟨by decide, ToSignedMessage_legacy _ _ _ _ 0x80 [] (by decide)⟩,
   ⟨by decide, ToSignedMessage_legacy _ _ _ _ 0xbf [0x01] (by decide)⟩⟩

/-- C5: every input whose first byte is the EIP-1559 type constant 0x02 gets
the result of running `parseEip1559Tx` on the input and, when it succeeds,
the decoded transaction's `ToSignedMessage`. -/
theorem ToSignedMessage_eip1559 (rest : List UInt8) :
    ToSignedMessage parseLegacyTx legacyToSignedMessage parseEip1559Tx
        eip1559ToSignedMessage (0x02 :: rest)
      = delegate parseEip1559Tx eip1559ToSignedMessage (0x02 :: rest) := by
  rw [ToSignedMessage_cons]
  rfl

/-- The delegation in the monad `Id`: the decoder's error when there is one,
else what the assembly returns. -/
theorem delegate_id {Tx : Type} (decoder : List UInt8 → Id (Tx × Option error))
    (toMsg : Tx → Id (Option SignedMessage × Option error)) (data : List UInt8) :
    delegate decoder toMsg data
      = match (decoder data).2 with
        | some e => (none, some e)
        | none => toMsg (decoder data).1 := by
  rfl

/-- C9: when the decoder selected by the first byte (`parseLegacyTx` above
0x7f, `parseEip1559Tx` at 0x02) returns the error `e`, the dispatcher returns
that same `e` and no message.  The equation holds for every message assembly
in every lawful monad, so the assembly is not run. -/
theorem ToSignedMessage_decoder_error [LawfulMonad m] (b : UInt8) (rest : List UInt8)
    (e : error)
    (h : (b > 0x7f ∧ ∃ tx, parseLegacyTx (b :: rest) = pure (tx, some e)) ∨
         (b = Eip1559TxType ∧ ∃ tx, parseEip1559Tx (b :: rest) = pure (tx, some e))) :
    ToSignedMessage parseLegacyTx legacyToSignedMessage parseEip1559Tx
        eip1559ToSignedMessage (b :: rest)
      = pure (none, some e) := by
  rw [ToSignedMessage_cons]
  rcases h with ⟨hb, tx, htx⟩ | ⟨hb, tx, htx⟩
  · simp [hb, delegate, htx]
  · subst hb
    have h1 : ¬ Eip1559TxType > 0x7f := by decide
    have h2 : ¬ Eip1559TxType = 1 := by decide
    simp [h1, h2, delegate, htx]

theorem ToSignedMessage_decoder_error_witness :
    ((((0xc0 : UInt8) > 0x7f ∧ ∃ tx, rejectingDecoderOpt [0xc0]
          = pure (tx, some (fmt.Errorf "rlp: expected list"))) ∨
        ((0xc0 : UInt8) = Eip1559TxType ∧ ∃ tx, rejectingDecoderOpt [0xc0]
          = pure (tx, some (fmt.Errorf "rlp: expected list")))) ∧
      ToSignedMessage rejectingDecoderOpt abortingAssembly rejectingDecoderOpt
          abortingAssembly [0xc0]
        = pure (none, some (fmt.Errorf "rlp: expected list"))) ∧
    ((((0x02 : UInt8) > 0x7f ∧ ∃ tx, rejectingDecoderOpt [0x02, 0xc0]
          = pure (tx, some (fmt.Errorf "rlp: expected list"))) ∨
        ((0x02 : UInt8) = Eip1559TxType ∧ ∃ tx, rejectingDecoderOpt [0x02, 0xc0]
          = pure (tx, some (fmt.Errorf "rlp: expected list")))) ∧
      ToSignedMessage rejectingDecoderOpt abortingAssembly rejectingDecoderOpt
          abortingAssembly [0x02, 0xc0]
        = pure (none, some (fmt.Errorf "rlp: expected list"))) :=
  ⟨⟨Or.inl ⟨by decide, (), rfl⟩,
    ToSignedMessage_decoder_error _ _ _ _ 0xc0 [] _ (Or.inl ⟨by decide, (), rfl⟩)⟩,
   ⟨Or.inr ⟨by decide, (), rfl⟩,
    ToSignedMessage_decoder_error _ _ _ _ 0x02 [0xc0] _ (Or.inr ⟨by decide, (), rfl⟩)⟩⟩

end DispatcherTheorems

section DispatcherResults

variable {SignedMessage LegacyTx Eip1559Tx : Type}
variable (parseLegacyTx : List UInt8 → Id (LegacyTx × Option error))
variable (legacyToSignedMessage : LegacyTx → Id (Option SignedMessage × Option error))
variable (parseEip1559Tx : List UInt8 → Id (Eip1559Tx × Option error))
variable (eip1559ToSignedMessage : Eip1559Tx → Id (Option SignedMessage × Option error))

/-- C10: the dispatcher returns no message with an error of its own or of a
decoder.  With decoders that are functions of the input: (1) on the empty
input, on a first byte of 1 and on an unrecognised first byte the result is
an error and no message; (2), (3) when the selected decoder returns an error
the result is that error and no message; (4) whenever a message is returned,
the first byte selected a decoder, that decoder returned no error, and the
result is what the decoded transaction's `ToSignedMessage` returned. -/
theorem ToSignedMessage_message_only_after_decode (data : List UInt8) :
    ((data = [] ∨ data.head? = some 1 ∨ (∃ b, data.head? = some b ∧ unrecognised b)) →
      ∃ e, ToSignedMessage parseLegacyTx legacyToSignedMessage parseEip1559Tx
        eip1559ToSignedMessage data = (none, some e)) ∧
    (∀ b e, data.head? = some b → b > 0x7f → (parseLegacyTx data).2 = some e →
      ToSignedMessage parseLegacyTx legacyToSignedMessage parseEip1559Tx
        eip1559ToSignedMessage data = (none, some e)) ∧
    (∀ e, data.head? = some Eip1559TxType → (parseEip1559Tx data).2 = some e →
      ToSignedMessage parseLegacyTx legacyToSignedMessage parseEip1559Tx
        eip1559ToSignedMessage data = (none, some e)) ∧
    (∀ msg, (ToSignedMessage parseLegacyTx legacyToSignedMessage parseEip1559Tx
        eip1559ToSignedMessage data).1 = some msg →
      ((∃ b, data.head? = some b ∧ b > 0x7f) ∧ (parseLegacyTx data).2 = none ∧
        ToSignedMessage parseLegacyTx legacyToSignedMessage parseEip1559Tx
          eip1559ToSignedMessage data = legacyToSignedMessage (parseLegacyTx data).1) ∨
      (data.head? = some Eip1559TxType ∧ (parseEip1559Tx data).2 = none ∧
        ToSignedMessage parseLegacyTx legacyToSignedMessage parseEip1559Tx
          eip1559ToSignedMessage data = eip1559ToSignedMessage (parseEip1559Tx data).1)) := by
  cases data with
  | nil =>
    rw [ToSignedMessage_nil]
    refine ⟨fun _ => ⟨_, rfl⟩, ?_, ?_, ?_⟩
    · intro b e hb; simp at hb
    · intro e hb; simp at hb
    · intro msg hmsg; simp [pure] at hmsg
  | cons b rest =>
    rw [ToSignedMessage_cons]
    simp only [List.head?_cons, Option.some.injEq, delegate_id]
    by_cases h1 : b > 0x7f
    · rw [if_pos h1]
      refine ⟨?_, ?_, ?_, ?_⟩
      · rintro (h | h | ⟨c, hc, hu⟩)
        · cases h
        · subst h; exact absurd h1 (by decide)
        · subst hc; exact absurd h1 ((unrecognised_iff _).1 hu).1
      · intro c e _ _ he
        rw [he]
      · intro e hb
        subst hb; exact absurd h1 (by decide)
      · intro msg hmsg
        left
        cases hd : (parseLegacyTx (b :: rest)).2 with
        | some e => rw [hd] at hmsg; cases hmsg
        | none => exact ⟨⟨b, rfl, h1⟩, rfl, rfl⟩
    · rw [if_neg h1]
      by_cases h2 : b = 1
      · rw [if_pos h2]
        refine ⟨fun _ => ⟨_, rfl⟩, ?_, ?_, ?_⟩
        · intro c e hc hgt
          subst hc; exact absurd hgt h1
        · intro e hb
          exact absurd (hb.symm.trans h2) (by decide)
        · intro msg hmsg; cases hmsg
      · rw [if_neg h2]
        by_cases h3 : b = Eip1559TxType
        · rw [if_pos h3]
          refine ⟨?_, ?_, ?_, ?_⟩
          · rintro (h | h | ⟨c, hc, hu⟩)
            · cases h
            · exact absurd h h2
            · subst hc; exact absurd h3 ((unrecognised_iff _).1 hu).2.2
          · intro c e hc hgt
            subst hc; exact absurd hgt h1
          · intro e _ he
            rw [he]
          · intro msg hmsg
            right
            cases hd : (parseEip1559Tx (b :: rest)).2 with
            | some e => rw [hd] at hmsg; cases hmsg
            | none => exact ⟨h3, rfl, rfl⟩
        · rw [if_neg h3]
          refine ⟨fun _ => ⟨_, rfl⟩, ?_, ?_, ?_⟩
          · intro c e hc hgt
            subst hc; exact absurd hgt h1
          · intro e hb
            exact absurd hb h3
          · intro msg hmsg; cases hmsg

theorem ToSignedMessage_message_only_after_decode_witness :
    (∃ e, ToSignedMessage acceptingDecoder unitAssembly rejectingDecoder unitAssembly []
        = (none, some e)) ∧
    ((rejectingDecoder [0x02]).2 = some (fmt.Errorf "rlp: expected list") ∧
      ToSignedMessage acceptingDecoder unitAssembly rejectingDecoder unitAssembly [0x02]
        = (none, some (fmt.Errorf "rlp: expected list"))) ∧
    ((ToSignedMessage acceptingDecoder unitAssembly rejectingDecoder unitAssembly [0xc0]).1
        = some () ∧
      (((∃ b, [(0xc0 : UInt8)].head? = some b ∧ b > 0x7f) ∧ (acceptingDecoder [0xc0]).2 = none ∧
        ToSignedMessage acceptingDecoder unitAssembly rejectingDecoder unitAssembly [0xc0]
          = unitAssembly (acceptingDecoder [0xc0]).1) ∨
       ([(0xc0 : UInt8)].head? = some Eip1559TxType ∧ (rejectingDecoder [0xc0]).2 = none ∧
        ToSignedMessage acceptingDecoder unitAssembly rejectingDecoder unitAssembly [0xc0]
          = unitAssembly (rejectingDecoder [0xc0]).1))) :=
  ⟨(ToSignedMessage_message_only_after_decode acceptingDecoder unitAssembly rejectingDecoder
      unitAssembly []).1 (Or.inl rfl),
   ⟨rfl, (ToSignedMessage_message_only_after_decode acceptingDecoder unitAssembly
      rejectingDecoder unitAssembly [0x02]).2.2.1 _ rfl rfl⟩,
   ⟨rfl, (ToSignedMessage_message_only_after_decode acceptingDecoder unitAssembly
      rejectingDecoder unitAssembly [0xc0]).2.2.2 () rfl⟩⟩

end DispatcherResults

/-! ## Theorems about the byte representation -/

theorem bigEndianAux_fuel (fuel₁ : Nat) :
    ∀ (fuel₂ n : Nat), n ≤ fuel₁ → n ≤ fuel₂ → bigEndianAux fuel₁ n = bigEndianAux fuel₂ n := by
  induction fuel₁ with
  | zero =>
    intro fuel₂ n h1 _
    have hn : n = 0 := by omega
    subst hn
    cases fuel₂ <;> simp [bigEndianAux]
  | succ k ih =>
    intro fuel₂ n h1 h2
    cases fuel₂ with
    | zero =>
      have hn : n = 0 := by omega
      subst hn
      simp [bigEndianAux]
    | succ j =>
      by_cases hn : n = 0
      · simp [bigEndianAux, hn]
      · have hk : n / 256 ≤ k := by omega
        have hj : n / 256 ≤ j := by omega
        simp [bigEndianAux, hn, ih j (n / 256) hk hj]

/-- The digits of a non-zero `n` are those of `n / 256` followed by the byte
`n % 256`. -/
theorem bigEndian_unfold (n : Nat) :
    bigEndian n
      = if n = 0 then [] else bigEndian (n / 256) ++ [UInt8.ofNat (n % 256)] := by
  cases n with
  | zero => simp [bigEndian, bigEndianAux]
  | succ k =>
    have hk : (k + 1) / 256 ≤ k := by omega
    simp [bigEndian, bigEndianAux,
      bigEndianAux_fuel k ((k + 1) / 256) ((k + 1) / 256) hk (Nat.le_refl _)]

theorem bigEndian_zero : bigEndian 0 = [] := by
  simp [bigEndian, bigEndianAux]

theorem bigEndian_ne_nil {n : Nat} (hn : n ≠ 0) : bigEndian n ≠ [] := by
  rw [bigEndian_unfold, if_neg hn]
  simp

theorem fromBigEndian_append (bs : List UInt8) (b : UInt8) :
    fromBigEndian (bs ++ [b]) = fromBigEndian bs * 256 + b.toNat := by
  simp [fromBigEndian, List.foldl_append]

theorem toNat_ofNat_mod (n : Nat) : (UInt8.ofNat (n % 256)).toNat = n % 256 :=
  UInt8.toNat_ofNat_of_lt (Nat.mod_lt n (by decide))

theorem fromBigEndian_bigEndian (n : Nat) : fromBigEndian (bigEndian n) = n := by
  induction n using Nat.strong_induction_on with
  | _ n ih =>
    rw [bigEndian_unfold]
    by_cases hn : n = 0
    · simp [hn, fromBigEndian]
    · rw [if_neg hn, fromBigEndian_append, ih (n / 256) (by omega), toNat_ofNat_mod]
      omega

theorem length_bigEndian_le_iff (k : Nat) :
    ∀ n : Nat, (bigEndian n).length ≤ k ↔ n < 256 ^ k := by
  induction k with
  | zero =>
    intro n
    rw [bigEndian_unfold]
    by_cases hn : n = 0
    · simp [hn]
    · simp [hn]
  | succ k ih =>
    intro n
    rw [bigEndian_unfold]
    by_cases hn : n = 0
    · simp [hn]
    · rw [if_neg hn]
      simp only [List.length_append, List.length_singleton, Nat.add_le_add_iff_right]
      rw [ih (n / 256), Nat.div_lt_iff_lt_mul (by decide : 0 < 256), Nat.pow_succ]

theorem head?_bigEndian_ne_zero (n : Nat) (hn : n ≠ 0) : (bigEndian n).head? ≠ some 0 := by
  induction n using Nat.strong_induction_on with
  | _ n ih =>
    rw [bigEndian_unfold, if_neg hn]
    by_cases hq : n / 256 = 0
    · have hlt : n < 256 := by
        rcases Nat.lt_or_ge n 256 with h | h
        · exact h
        · exfalso
          have := Nat.div_pos h (by decide : 0 < 256)
          omega
      rw [hq, bigEndian_zero, Nat.mod_eq_of_lt hlt]
      simp only [List.nil_append, List.head?_cons, ne_eq, Option.some.injEq]
      intro h0
      have := congrArg UInt8.toNat h0
      rw [UInt8.toNat_ofNat_of_lt hlt] at this
      exact hn this
    · have hne := bigEndian_ne_nil hq
      rw [List.head?_append_of_ne_nil _ hne]
      exact ih (n / 256) (by omega) hq

theorem fromBigEndian_lt (bs : List UInt8) : fromBigEndian bs < 256 ^ bs.length := by
  induction bs using List.reverseRecOn with
  | nil => simp [fromBigEndian]
  | append_singleton bs b ih =>
    rw [fromBigEndian_append, List.length_append, List.length_singleton, Nat.pow_succ]
    have hb : b.toNat < 256 := UInt8.toNat_lt_size b
    omega

/-! ## Theorems about the formatting function of the spec -/

theorem formatBigInt_of_lt {x : Nat} (hx : x < 2 ^ 256) :
    formatBigInt x = (if x = 0 then [0] else bigEndian x, none) := by
  have hlen : (if x = 0 then [(0 : UInt8)] else bigEndian x).length ≤ 32 := by
    by_cases h0 : x = 0
    · simp [h0]
    · rw [if_neg h0, length_bigEndian_le_iff]
      calc x < 2 ^ 256 := hx
        _ = 256 ^ 32 := by norm_num
  have hnot : ¬ (if x = 0 then [(0 : UInt8)] else bigEndian x).length > maxFieldWidth := by
    simp only [maxFieldWidth]; omega
  simp only [formatBigInt, if_neg hnot]

theorem formatBigInt_of_ge {x : Nat} (hx : 2 ^ 256 ≤ x) :
    formatBigInt x = ([], some IntegerOverflow) := by
  have h0 : x ≠ 0 := by
    intro h; subst h; norm_num at hx
  have hlen : (if x = 0 then [(0 : UInt8)] else bigEndian x).length > maxFieldWidth := by
    rw [if_neg h0]
    simp only [maxFieldWidth, gt_iff_lt]
    by_contra hle
    have hle32 : (bigEndian x).length ≤ 32 := by omega
    rw [length_bigEndian_le_iff] at hle32
    have : (256 : Nat) ^ 32 = 2 ^ 256 := by norm_num
    omega
  simp only [formatBigInt, if_pos hlen]

theorem isCanonical_format (x : Nat) :
    IsCanonical x (if x = 0 then [0] else bigEndian x) := by
  by_cases h0 : x = 0
  · subst h0
    refine ⟨by simp [fromBigEndian], by simp, fun _ => by simp, fun h => absurd rfl h, ?_⟩
    intro other hne _
    cases other with
    | nil => exact absurd rfl hne
    | cons a t => simp
  · rw [if_neg h0]
    refine ⟨fromBigEndian_bigEndian x, bigEndian_ne_nil h0, fun h => absurd h h0,
      fun _ => head?_bigEndian_ne_zero x h0, ?_⟩
    intro other _ hval
    rw [length_bigEndian_le_iff, ← hval]
    exact fromBigEndian_lt other

theorem packSigFields_formatBigInt_of_lt {v r s : Nat} (hv : v < 2 ^ 256) (hr : r < 2 ^ 256)
    (hs : s < 2 ^ 256) :
    packSigFields formatBigInt v r s
      = (some [if v = 0 then [0] else bigEndian v, if r = 0 then [0] else bigEndian r,
          if s = 0 then [0] else bigEndian s], none) := by
  simp [packSigFields, formatBigInt_of_lt hv, formatBigInt_of_lt hr, formatBigInt_of_lt hs]

theorem packSigFields_formatBigInt_of_ge {v r s : Nat}
    (h : 2 ^ 256 ≤ v ∨ 2 ^ 256 ≤ r ∨ 2 ^ 256 ≤ s) :
    packSigFields formatBigInt v r s = (none, some IntegerOverflow) := by
  rcases Nat.lt_or_ge v (2 ^ 256) with hv | hv
  · rcases Nat.lt_or_ge r (2 ^ 256) with hr | hr
    · have hs : 2 ^ 256 ≤ s := by omega
      simp [packSigFields, formatBigInt_of_lt hv, formatBigInt_of_lt hr, formatBigInt_of_ge hs]
    · simp [packSigFields, formatBigInt_of_lt hv, formatBigInt_of_ge hr]
  · simp [packSigFields, formatBigInt_of_ge hv]

/-! ## Theorems about `packSigFields` -/

/-- The three formatting calls of `packSigFields` in the monad `Id`, in the
order of the source: the first error ends the call. -/
theorem packSigFields_id {BigInt Formatted : Type}
    (format : BigInt → Id (Formatted × Option error)) (v r s : BigInt) :
    packSigFields format v r s
      = if (format v).2 ≠ none then (none, (format v).2)
        else if (format r).2 ≠ none then (none, (format r).2)
        else if (format s).2 ≠ none then (none, (format s).2)
        else (some [(format v).1, (format r).1, (format s).1], none) := by
  rfl

/-- C6: whenever `packSigFields` succeeds, its output has exactly three
elements: what the formatting function gives for `v`, for `r` and for `s`, in
this order, the same function for each of the three. -/
theorem packSigFields_three_in_order {BigInt Formatted : Type}
    (format : BigInt → Id (Formatted × Option error)) (v r s : BigInt)
    (h : (packSigFields format v r s).2 = none) :
    ∃ out, packSigFields format v r s = (some out, none) ∧ out.length = 3 ∧
      out = [(format v).1, (format r).1, (format s).1] := by
  rw [packSigFields_id] at h ⊢
  by_cases hv : (format v).2 ≠ none
  · rw [if_pos hv] at h; exact absurd h hv
  · rw [if_neg hv] at h ⊢
    by_cases hr : (format r).2 ≠ none
    · rw [if_pos hr] at h; exact absurd h hr
    · rw [if_neg hr] at h ⊢
      by_cases hs : (format s).2 ≠ none
      · rw [if_pos hs] at h; exact absurd h hs
      · rw [if_neg hs]
        exact ⟨_, rfl, rfl, rfl⟩

theorem packSigFields_three_in_order_witness :
    (packSigFields identityFormat 27 5 7).2 = none ∧
    ∃ out, packSigFields identityFormat 27 5 7 = (some out, none) ∧ out.length = 3 ∧
      out = [(identityFormat 27).1, (identityFormat 5).1, (identityFormat 7).1] :=
  ⟨rfl, packSigFields_three_in_order identityFormat 27 5 7 rfl⟩

/-- C7: with the formatting function of the spec, whenever `packSigFields`
succeeds on three non-negative integers, each of its three output elements
is the canonical representation of the corresponding integer: big-endian,
of minimal length, never empty, the single zero byte for zero and without a
leading zero byte otherwise. -/
theorem packSigFields_canonical (v r s : Nat)
    (h : (packSigFields formatBigInt v r s).2 = none) :
    ∃ ev er es, packSigFields formatBigInt v r s = (some [ev, er, es], none) ∧
      IsCanonical v ev ∧ IsCanonical r er ∧ IsCanonical s es := by
  have hall : v < 2 ^ 256 ∧ r < 2 ^ 256 ∧ s < 2 ^ 256 := by
    by_contra hcon
    have hge : 2 ^ 256 ≤ v ∨ 2 ^ 256 ≤ r ∨ 2 ^ 256 ≤ s := by omega
    rw [packSigFields_formatBigInt_of_ge hge] at h
    cases h
  obtain ⟨hv, hr, hs⟩ := hall
  exact ⟨_, _, _, packSigFields_formatBigInt_of_lt hv hr hs, isCanonical_format v,
    isCanonical_format r, isCanonical_format s⟩

theorem packSigFields_canonical_witness :
    (packSigFields formatBigInt 27 0 258).2 = none ∧
    ∃ ev er es, packSigFields formatBigInt 27 0 258 = (some [ev, er, es], none) ∧
      IsCanonical 27 ev ∧ IsCanonical 0 er ∧ IsCanonical 258 es :=
  ⟨by decide, packSigFields_canonical 27 0 258 (by decide)⟩

section PureCallees

variable {SignedMessage LegacyTx Eip1559Tx : Type}
variable (parseLegacyTx : List UInt8 → LegacyTx × Option error)
variable (legacyToSignedMessage : LegacyTx → Option SignedMessage × Option error)
variable (parseEip1559Tx : List UInt8 → Eip1559Tx × Option error)
variable (eip1559ToSignedMessage : Eip1559Tx → Option SignedMessage × Option error)

/-- C14: the three rejections of the dispatcher itself can be told apart:
the error for the empty input, the error for a first byte 1 and the error
for an unrecognised first byte are three errors with three different
messages. -/
theorem ToSignedMessage_rejections_distinct (rest₁ rest₂ : List UInt8) (b : UInt8)
    (hb : unrecognised b) :
    ∃ e₁ e₂ e₃ : error,
      ToSignedMessage (m := Id) parseLegacyTx legacyToSignedMessage parseEip1559Tx
        eip1559ToSignedMessage [] = (none, some e₁) ∧
      ToSignedMessage (m := Id) parseLegacyTx legacyToSignedMessage parseEip1559Tx
        eip1559ToSignedMessage (1 :: rest₁) = (none, some e₂) ∧
      ToSignedMessage (m := Id) parseLegacyTx legacyToSignedMessage parseEip1559Tx
        eip1559ToSignedMessage (b :: rest₂) = (none, some e₃) ∧
      e₁ ≠ e₂ ∧ e₁ ≠ e₃ ∧ e₂ ≠ e₃ ∧
      e₁.msg ≠ e₂.msg ∧ e₁.msg ≠ e₃.msg ∧ e₂.msg ≠ e₃.msg := by
  obtain ⟨h1, h2, h3⟩ := (unrecognised_iff b).1 hb
  refine ⟨fmt.Errorf "empty data", fmt.Errorf "EIP-2930 transaction is not supported",
    fmt.Errorf "unsupported transaction type", ?_, ?_, ?_, by decide, by decide, by decide,
    by decide, by decide, by decide⟩
  · rw [ToSignedMessage_nil]; rfl
  · rw [ToSignedMessage_cons]; rfl
  · rw [ToSignedMessage_cons, if_neg h1, if_neg h2, if_neg h3]; rfl

theorem ToSignedMessage_rejections_distinct_witness :
    unrecognised 0x05 ∧
    ∃ e₁ e₂ e₃ : error,
      ToSignedMessage (m := Id) acceptingDecoder unitAssembly acceptingDecoder unitAssembly
        [] = (none, some e₁) ∧
      ToSignedMessage (m := Id) acceptingDecoder unitAssembly acceptingDecoder unitAssembly
        (1 :: [0xc0]) = (none, some e₂) ∧
      ToSignedMessage (m := Id) acceptingDecoder unitAssembly acceptingDecoder unitAssembly
        (0x05 :: []) = (none, some e₃) ∧
      e₁ ≠ e₂ ∧ e₁ ≠ e₃ ∧ e₂ ≠ e₃ ∧
      e₁.msg ≠ e₂.msg ∧ e₁.msg ≠ e₃.msg ∧ e₂.msg ≠ e₃.msg :=
  ⟨by decide, ToSignedMessage_rejections_distinct acceptingDecoder unitAssembly
    acceptingDecoder unitAssembly [0xc0] [] 0x05 (by decide)⟩

/-- C15: with every read of `data[0]` checked at run time, the dispatcher
never panics: on every byte sequence, the empty one included, it returns the
pair of the dispatcher, because the length test comes before the reads;
a read of `data[0]` on the empty input would panic. -/
theorem ToSignedMessageIndexed_never_panics (data : List UInt8) :
    indexByte [] 0 = none ∧
    ToSignedMessageIndexed parseLegacyTx legacyToSignedMessage parseEip1559Tx
        eip1559ToSignedMessage data
      = some (ToSignedMessage (m := Id) parseLegacyTx legacyToSignedMessage parseEip1559Tx
          eip1559ToSignedMessage data) := by
  refine ⟨rfl, ?_⟩
  cases data with
  | nil => rfl
  | cons b rest =>
    rw [ToSignedMessage_cons]
    simp only [ToSignedMessageIndexed, indexByte, List.length_cons, Nat.add_one_ne_zero,
      if_false, List.get?_cons_zero, Option.bind_eq_bind, Option.some_bind, delegate_id]
    by_cases h1 : b > 0x7f
    · rw [if_pos h1, if_pos h1]
      cases h : (parseLegacyTx (b :: rest)).2 <;> simp [h, pure]
    · rw [if_neg h1, if_neg h1]
      by_cases h2 : b = 1
      · rw [if_pos h2, if_pos h2]; rfl
      · rw [if_neg h2, if_neg h2]
        by_cases h3 : b = Eip1559TxType
        · rw [if_pos h3, if_pos h3]
          cases h : (parseEip1559Tx (b :: rest)).2 <;> simp [h, pure]
        · rw [if_neg h3, if_neg h3]; rfl

end PureCallees

/-! ## The five cases and the order of the tests -/

theorem byte_above_7f (b : UInt8) : b > 0x7f → b ≠ 1 ∧ b ≠ 0x02 := by
  rcases b with ⟨n⟩
  revert n
  decide

/-- Every input is in exactly one of the five cases. -/
theorem TxKind.existsUnique_holds (data : List UInt8) :
    ∃! k : TxKind, k.holds data = true := by
  cases data with
  | nil =>
    refine ⟨.empty, rfl, ?_⟩
    intro k hk
    cases k <;> simp [TxKind.holds] at hk ⊢
  | cons b rest =>
    by_cases h1 : b > 0x7f
    · obtain ⟨h2, h3⟩ := byte_above_7f b h1
      refine ⟨.legacy, by simp [TxKind.holds, h1], ?_⟩
      intro k hk
      cases k <;> simp [TxKind.holds, h1, h2, h3] at hk ⊢
    · by_cases h2 : b = 1
      · subst h2
        refine ⟨.eip2930, by simp [TxKind.holds], ?_⟩
        intro k hk
        cases k <;> simp [TxKind.holds] at hk ⊢
      · by_cases h3 : b = 0x02
        · subst h3
          refine ⟨.eip1559, by simp [TxKind.holds], ?_⟩
          intro k hk
          cases k <;> simp [TxKind.holds] at hk ⊢
        · refine ⟨.unknown, by simp [TxKind.holds, h1, h2, h3], ?_⟩
          intro k hk
          cases k <;> simp [TxKind.holds, h1, h2, h3] at hk ⊢

section CasesTheorems

variable {m : Type → Type} [Monad m] {SignedMessage LegacyTx Eip1559Tx : Type}
variable (parseLegacyTx : List UInt8 → m (LegacyTx × Option error))
variable (legacyToSignedMessage : LegacyTx → m (Option SignedMessage × Option error))
variable (parseEip1559Tx : List UInt8 → m (Eip1559Tx × Option error))
variable (eip1559ToSignedMessage : Eip1559Tx → m (Option SignedMessage × Option error))

/-- In each case the dispatcher does what the case asks for. -/
theorem ToSignedMessage_eq_outcome (k : TxKind) (data : List UInt8)
    (hk : k.holds data = true) :
    ToSignedMessage parseLegacyTx legacyToSignedMessage parseEip1559Tx
        eip1559ToSignedMessage data
      = k.outcome parseLegacyTx legacyToSignedMessage parseEip1559Tx
        eip1559ToSignedMessage data := by
  cases data with
  | nil =>
    cases k <;> simp [TxKind.holds] at hk
    rw [ToSignedMessage_nil]; rfl
  | cons b rest =>
    rw [ToSignedMessage_cons]
    cases k <;> simp only [TxKind.holds, List.head?_cons, List.isEmpty_cons,
      decide_eq_true_eq] at hk
    · exact absurd hk (by decide)
    · rw [if_pos hk]; rfl
    · subst hk; rfl
    · subst hk; rfl
    · have h3 : ¬ b = Eip1559TxType := hk.2.2
      rw [if_neg hk.1, if_neg hk.2.1, if_neg h3]; rfl

/-- A dispatch that goes through the tests in any order does what the
dispatcher does, as soon as the list has the case of the input. -/
theorem dispatchInOrder_eq (order : List TxKind) (data : List UInt8)
    (h : ∃ k, k ∈ order ∧ k.holds data = true) :
    dispatchInOrder parseLegacyTx legacyToSignedMessage parseEip1559Tx
        eip1559ToSignedMessage order data
      = some (ToSignedMessage parseLegacyTx legacyToSignedMessage parseEip1559Tx
          eip1559ToSignedMessage data) := by
  induction order with
  | nil =>
    obtain ⟨k, hk, _⟩ := h
    cases hk
  | cons j rest ih =>
    by_cases hj : j.holds data = true
    · simp only [dispatchInOrder, hj, if_true]
      rw [ToSignedMessage_eq_outcome _ _ _ _ j data hj]
    · simp only [dispatchInOrder, hj]
      obtain ⟨k, hk, hkd⟩ := h
      rcases List.mem_cons.1 hk with hkj | hkr
      · subst hkj; exact absurd hkd hj
      · exact ih ⟨k, hkr, hkd⟩

/-- A delegation to a decoder that records its calls adds one entry to the
call log, and returns what the delegation returns. -/
theorem delegate_recorded {Tx : Type} (entry : List UInt8 → Decoder)
    (decoder : List UInt8 → Tx × Option error)
    (toMsg : Tx → Option SignedMessage × Option error) (data : List UInt8)
    (log : List Decoder) :
    (delegate (recorded entry decoder) (effectFree toMsg) data).run log
      = (delegate (m := Id) decoder toMsg data, log ++ [entry data]) := by
  simp only [delegate, recorded, effectFree]
  cases h : (decoder data).2 with
  | none => simp [h, bind, pure, StateT.run, StateT.bind, modify, modifyGet, StateT.modifyGet,
      StateT.pure, MonadStateOf.modifyGet]
  | some e => simp [h, bind, pure, StateT.run, StateT.bind, modify, modifyGet,
      StateT.modifyGet, StateT.pure, MonadStateOf.modifyGet]

/-- C11: the five cases empty, legacy, EIP-2930, EIP-1559 and unknown are
exhaustive and mutually exclusive, and they decide the dispatch.  (1) Every
input is in exactly one case; (2) the dispatcher does what that case asks
for; (3) a dispatch that tests the five cases in any other order does the
same; (4) run with decoders that record their calls, the dispatcher leaves a
call log of at most one decoder: the legacy decoder in the legacy case, the
EIP-1559 decoder in the EIP-1559 case, none otherwise. -/
theorem ToSignedMessage_cases_partition
    (decodeLegacy : List UInt8 → LegacyTx × Option error)
    (assembleLegacy : LegacyTx → Option SignedMessage × Option error)
    (decodeEip1559 : List UInt8 → Eip1559Tx × Option error)
    (assembleEip1559 : Eip1559Tx → Option SignedMessage × Option error)
    (data : List UInt8) :
    (∃! k : TxKind, k.holds data = true) ∧
    (∀ k : TxKind, k.holds data = true →
      ToSignedMessage parseLegacyTx legacyToSignedMessage parseEip1559Tx
          eip1559ToSignedMessage data
        = k.outcome parseLegacyTx legacyToSignedMessage parseEip1559Tx
          eip1559ToSignedMessage data) ∧
    (∀ order : List TxKind, (∀ k : TxKind, k ∈ order) →
      dispatchInOrder parseLegacyTx legacyToSignedMessage parseEip1559Tx
          eip1559ToSignedMessage order data
        = some (ToSignedMessage parseLegacyTx legacyToSignedMessage parseEip1559Tx
            eip1559ToSignedMessage data)) ∧
    (∃ log : List Decoder,
      (ToSignedMessage (recorded (fun _ => Decoder.parseLegacyTx) decodeLegacy)
          (effectFree assembleLegacy)
          (recorded (fun _ => Decoder.parseEip1559Tx) decodeEip1559)
          (effectFree assembleEip1559) data).run []
        = (ToSignedMessage (m := Id) decodeLegacy assembleLegacy decodeEip1559
            assembleEip1559 data, log) ∧
      log.length ≤ 1 ∧
      log = if TxKind.legacy.holds data then [Decoder.parseLegacyTx]
            else if TxKind.eip1559.holds data then [Decoder.parseEip1559Tx]
            else []) := by
  refine ⟨TxKind.existsUnique_holds data,
    fun k hk => ToSignedMessage_eq_outcome _ _ _ _ k data hk, ?_, ?_⟩
  · intro order hall
    obtain ⟨k, hk, _⟩ := TxKind.existsUnique_holds data
    exact dispatchInOrder_eq _ _ _ _ order data ⟨k, hall k, hk⟩
  · cases data with
    | nil =>
      refine ⟨[], ?_, by simp, by simp [TxKind.holds]⟩
      rw [ToSignedMessage_nil, ToSignedMessage_nil]; rfl
    | cons b rest =>
      rw [ToSignedMessage_cons, ToSignedMessage_cons]
      simp only [TxKind.holds, List.head?_cons, decide_eq_true_eq]
      by_cases h1 : b > 0x7f
      · rw [if_pos h1, if_pos h1, if_pos h1, delegate_recorded]
        exact ⟨_, rfl, by simp, by simp⟩
      · rw [if_neg h1, if_neg h1, if_neg h1]
        by_cases h2 : b = 1
        · subst h2
          exact ⟨[], rfl, by simp, by simp⟩
        · rw [if_neg h2, if_neg h2]
          by_cases h3 : b = Eip1559TxType
          · have h3' : b = 0x02 := h3
            rw [if_pos h3, if_pos h3, if_pos h3', delegate_recorded]
            exact ⟨_, rfl, by simp, by simp⟩
          · have h3' : ¬ b = 0x02 := h3
            rw [if_neg h3, if_neg h3, if_neg h3']
            exact ⟨[], rfl, by simp, by simp⟩

theorem ToSignedMessage_cases_partition_witness :
    (TxKind.eip1559.holds [0x02, 0xc0] = true ∧
      ToSignedMessage rejectingDecoder unitAssembly acceptingDecoder unitAssembly [0x02, 0xc0]
        = TxKind.eip1559.outcome rejectingDecoder unitAssembly acceptingDecoder unitAssembly
          [0x02, 0xc0]) ∧
    ((∀ k : TxKind, k ∈ [TxKind.unknown, TxKind.eip1559, TxKind.eip2930, TxKind.legacy,
        TxKind.empty]) ∧
      dispatchInOrder rejectingDecoder unitAssembly acceptingDecoder unitAssembly
          [TxKind.unknown, TxKind.eip1559, TxKind.eip2930, TxKind.legacy, TxKind.empty]
          [0x02, 0xc0]
        = some (ToSignedMessage rejectingDecoder unitAssembly acceptingDecoder unitAssembly
            [0x02, 0xc0])) :=
  ⟨⟨rfl, (ToSignedMessage_cases_partition rejectingDecoder unitAssembly acceptingDecoder
      unitAssembly rejectingDecoder unitAssembly acceptingDecoder unitAssembly
      [0x02, 0xc0]).2.1 TxKind.eip1559 rfl⟩,
   ⟨by intro k; cases k <;> simp,
    (ToSignedMessage_cases_partition rejectingDecoder unitAssembly acceptingDecoder
      unitAssembly rejectingDecoder unitAssembly acceptingDecoder unitAssembly
      [0x02, 0xc0]).2.2.1 _ (by intro k; cases k <;> simp)⟩⟩

end CasesTheorems

/-! ## The failures of `packSigFields` -/

section PackFailures

variable {BigInt Formatted : Type}

/-- The run of `packSigFields` with a formatting function that records the
integers it is called with: the result is that of `packSigFields`, and the
log has `v`, then `r` unless `v` failed, then `s` unless `v` or `r` failed. -/
theorem packSigFields_recorded (format : BigInt → Formatted × Option error) (v r s : BigInt)
    (log : List BigInt) :
    (packSigFields (recorded id format) v r s).run log
      = if (format v).2 ≠ none then ((none, (format v).2), log ++ [v])
        else if (format r).2 ≠ none then ((none, (format r).2), log ++ [v, r])
        else if (format s).2 ≠ none then ((none, (format s).2), log ++ [v, r, s])
        else ((some [(format v).1, (format r).1, (format s).1], none), log ++ [v, r, s]) := by
  rcases hv : format v with ⟨a, ea⟩
  rcases hr : format r with ⟨b, eb⟩
  rcases hs : format s with ⟨c, ec⟩
  cases ea <;> cases eb <;> cases ec <;>
    simp [packSigFields, recorded, hv, hr, hs, bind, pure, StateT.run, StateT.bind, modify,
      modifyGet, StateT.modifyGet, StateT.pure, MonadStateOf.modifyGet]

/-- C13: `packSigFields` fails exactly when the formatting of `v`, of `r` or
of `s` fails, and then it returns no sequence.  Its error is that of the
first component that fails, in the order `v`, `r`, `s`, and the components
after it are not formatted: run with a formatting function that records its
calls, the log ends with the failing component. -/
theorem packSigFields_fails_iff (format : BigInt → Formatted × Option error)
    (v r s : BigInt) :
    ((packSigFields (m := Id) format v r s).2 ≠ none
      ↔ (format v).2 ≠ none ∨ (format r).2 ≠ none ∨ (format s).2 ≠ none) ∧
    ((packSigFields (m := Id) format v r s).2 ≠ none →
      (packSigFields (m := Id) format v r s).1 = none) ∧
    ((packSigFields (recorded id format) v r s).run []).1
      = packSigFields (m := Id) format v r s ∧
    (∀ e, (format v).2 = some e →
      (packSigFields (recorded id format) v r s).run [] = ((none, some e), [v])) ∧
    (∀ e, (format v).2 = none → (format r).2 = some e →
      (packSigFields (recorded id format) v r s).run [] = ((none, some e), [v, r])) ∧
    (∀ e, (format v).2 = none → (format r).2 = none → (format s).2 = some e →
      (packSigFields (recorded id format) v r s).run [] = ((none, some e), [v, r, s])) := by
  rw [packSigFields_id, packSigFields_recorded]
  cases hv : (format v).2 with
  | some ev => simp
  | none =>
    cases hr : (format r).2 with
    | some er => simp
    | none =>
      cases hs : (format s).2 with
      | some es => simp
      | none => simp

theorem packSigFields_fails_iff_witness :
    ((narrowFormat 27).2 = none ∧ (narrowFormat 300).2 = some (fmt.Errorf "too wide")) ∧
    (packSigFields (recorded id narrowFormat) 27 300 5).run []
      = ((none, some (fmt.Errorf "too wide")), [27, 300]) :=
  ⟨⟨rfl, rfl⟩, (packSigFields_fails_iff narrowFormat 27 300 5).2.2.2.2.1 _ rfl rfl⟩

end PackFailures

end ethtypes
